import Mathlib

/-!
Verification of the ¡Enfoque! focus-timer core (focus-session countdown,
backgrounding compensator, completion-notifier cascade, reward selector,
storage migration) against its specification.

The definitions below are a shallow embedding of the TypeScript sources:
`src/app/(tabs)/focus.tsx`, `src/utils/audio.ts` and the storage service.
JS numbers holding whole seconds/millis are modelled as `Int`/`Nat` with the
clamping written out exactly as in the source (`Math.max(0, _)`,
`Math.floor(_ / 1000)` as `Int.fdiv`); nullable values become `Option`;
the `try`/`catch` structure of the audio service is modelled with
`Except` bodies and an explicit catch combinator.
-/

namespace Enfoque

/-- React-Native `AppState` values observed by `handleAppStateChange`. -/
inductive RNAppState
  | active
  | inactive
  | background
deriving DecidableEq, Repr

/-- The regex test `state.match(/inactive|background/)` from focus.tsx. -/
def RNAppState.isBg : RNAppState → Bool
  | .active => false
  | .inactive => true
  | .background => true

/-- State of the focus screen relevant to the session clock and compensator
(focus.tsx component state plus the `backgroundStartTime` ref).
`completions` counts invocations of `handleTimerComplete`, i.e. firings of
the completion notifier. -/
structure FocusState where
  task : String
  timeLeft : Int
  isRunning : Bool
  bgStart : Option Nat
  appState : RNAppState
  completions : Nat
deriving DecidableEq, Repr

/-- focus.tsx `handleTimerComplete` (lines 201-249): stops the clock, clears
the suspension timestamp and fires the completion notifier once. -/
def handleTimerComplete (s : FocusState) : FocusState :=
  { s with isRunning := false, bgStart := none, completions := s.completions + 1 }

/-- One firing of the per-second interval callback (focus.tsx lines 125-134).
The interval only exists while `isRunning && timeLeft > 0` (the effect guard
at line 120), hence the outer condition. -/
def tick (s : FocusState) : FocusState :=
  if s.isRunning = true ∧ 0 < s.timeLeft then
    let newTime := s.timeLeft - 1
    if newTime ≤ 0 then { handleTimerComplete s with timeLeft := 0 }
    else { s with timeLeft := newTime }
  else s

/-- `n` consecutive interval firings. -/
def ticks : Nat → FocusState → FocusState
  | 0, s => s
  | n + 1, s => ticks n (tick s)

/-- focus.tsx `handleAppStateChange` (lines 97-117). On foregrounding while a
suspension timestamp is recorded and the session runs, it subtracts
`Math.floor((Date.now() - backgroundStartTime.current) / 1000)` clamped at 0
and completes the session if the result hits 0; the timestamp is cleared on
every foreground transition. Going background while running records `now`.
The `t0 ≠ 0` conjunct models JS truthiness of the stored millis value. -/
def handleAppStateChange (s : FocusState) (next : RNAppState) (now : Nat) : FocusState :=
  let s1 :=
    if s.appState.isBg = true ∧ next = .active then
      let s2 :=
        match s.bgStart with
        | some t0 =>
          if s.isRunning = true ∧ t0 ≠ 0 then
            let elapsed : Int := Int.fdiv ((now : Int) - (t0 : Int)) 1000
            let newTime : Int := max 0 (s.timeLeft - elapsed)
            if newTime ≤ 0 then { handleTimerComplete s with timeLeft := newTime }
            else { s with timeLeft := newTime }
          else s
        | none => s
      { s2 with bgStart := none }
    else if next.isBg = true ∧ s.isRunning = true then
      { s with bgStart := some now }
    else s
  { s1 with appState := next }

/-- JS `String.prototype.trim`: strip leading and trailing whitespace. -/
def jsTrim (s : String) : String :=
  ⟨((s.data.dropWhile Char.isWhitespace).reverse.dropWhile Char.isWhitespace).reverse⟩

/-- focus.tsx `toggleTimer` (lines 251-266): an empty (trimmed) task label is
rejected with a user-facing alert and no state change; otherwise the clock is
started (clearing any stale suspension timestamp) or paused. -/
def toggleTimer (s : FocusState) : FocusState × Option String :=
  if jsTrim s.task = "" then (s, some "Task Required")
  else
    let s1 := if s.isRunning = false then { s with bgStart := none } else s
    ({ s1 with isRunning := !s.isRunning }, none)

/-- focus.tsx `resetTimer` (lines 268-277); `durationSeconds` is the product
`selectedDuration * 60` computed at line 270. -/
def resetTimer (s : FocusState) (durationSeconds : Int) : FocusState :=
  { s with isRunning := false, timeLeft := durationSeconds, bgStart := none }

/-- The events that mutate the session state. -/
inductive FocusEv
  | tickE
  | appE (next : RNAppState) (now : Nat)
  | toggleE
  | resetE (durationSeconds : Int)
deriving DecidableEq, Repr

/-- Dispatch of one event. -/
def stepEv (s : FocusState) : FocusEv → FocusState
  | .tickE => tick s
  | .appE next now => handleAppStateChange s next now
  | .toggleE => (toggleTimer s).1
  | .resetE d => resetTimer s d

/-- Run a list of events in order. -/
def runEvs : FocusState → List FocusEv → FocusState
  | s, [] => s
  | s, e :: es => runEvs (stepEv s e) es

/-- Reward activity record (storage.ts `Activity` interface). -/
structure Activity where
  id : String
  name : String
  category : String
  emoji : String
  createdAt : Nat
deriving DecidableEq, Repr

/-- The body of the do/while re-roll loop in focus.tsx `getNewActivity`
(lines 288-291): each iteration draws `activities[Math.floor(Math.random() *
activities.length)]`; the draw is rejected while its id equals the current
activity's id (and the pool has more than one entry). The successive random
indices are supplied as `rands`; `none` means the supply ran out before an
acceptable draw (the code would keep looping). -/
def drawLoop (activities : List Activity) (curId : Option String) :
    List Nat → Option Activity
  | [] => none
  | r :: rs =>
    match activities.get? r with
    | none => none
    | some a =>
      if curId = some a.id ∧ 1 < activities.length then drawLoop activities curId rs
      else some a

/-- focus.tsx `getNewActivity` (lines 286-294): a re-roll happens only when
the pool has more than one entry; otherwise the shown activity is untouched
(`none` = no new pick was made). -/
def getNewActivity (activities : List Activity) (cur : Option Activity)
    (rands : List Nat) : Option Activity :=
  if 1 < activities.length then drawLoop activities (cur.map (·.id)) rands
  else none

/-- The activity displayed after a `getNewActivity` call: `setCurrentActivity`
runs only when a new pick was made. -/
def displayedAfter (activities : List Activity) (cur : Option Activity)
    (rands : List Nat) : Option Activity :=
  match getNewActivity activities cur rands with
  | some a => some a
  | none => cur

end Enfoque

namespace Enfoque.AudioSvc

/-- audio.ts `SoundOption` interface. -/
structure SoundOption where
  id : String
  name : String
  uri : Option String
  isDefault : Bool
deriving DecidableEq, Repr

/-- audio.ts `DEFAULT_SOUNDS[0]`. -/
def defaultBell : SoundOption := ⟨"default_bell", "Default Bell", none, true⟩

/-- audio.ts `DEFAULT_SOUNDS`: bundled catalog entries carrying no uri. -/
def DEFAULT_SOUNDS : List SoundOption :=
  [defaultBell, ⟨"default_chime", "Default Chime", none, true⟩]

/-- The `Platform.OS` branch taken throughout audio.ts. -/
inductive Plat
  | web
  | mobile
deriving DecidableEq, Repr

/-- Outcomes of the external primitives the audio service awaits or invokes;
`true` means the call succeeds, `false` that it raises. -/
structure AudioEnv where
  unloadOk : Bool
  webPlayOk : Bool
  createOk : Bool
  playOk : Bool
  notifyOk : Bool
  beepWebOk : Bool
  beepMobileOk : Bool
  vibrateOk : Bool
deriving DecidableEq, Repr

/-- Observable effects of one notifier cascade, in the order they happen. -/
inductive AudioEffect
  | unloadPrevAttempt
  | customAttempt (uri : String)
  | customPlayed
  | notifPosted
  | sysNotifyCall
  | beepAttempt
  | beepPlayed
  | vibrateAttempt
  | vibrated
deriving DecidableEq, Repr

/-- A JS `try { body } catch (e) { handler }` where the raised value carries
the effects already logged before the throw. -/
def tryCatch {α : Type} (body : Except (List AudioEffect) α)
    (handler : List AudioEffect → α) : α :=
  match body with
  | .ok a => a
  | .error effs => handler effs

/-- The guard `soundOption && !soundOption.isDefault && soundOption.uri`
used by both platform branches of `playSound` (audio.ts lines 86, 123). -/
def customApplicable : Option SoundOption → Option String
  | some o => if o.isDefault then none else o.uri
  | none => none

/-- JS `String.prototype.startsWith`. -/
def jsStartsWith (s q : String) : Bool :=
  q.data.isPrefixOf s.data

/-- The uri-format validation at audio.ts line 130. -/
def uriSchemeOk (u : String) : Bool :=
  jsStartsWith u "file://" || jsStartsWith u "content://" || jsStartsWith u "http"

/-- Body of the `try` around `this.sound.unloadAsync()` (audio.ts 74-82). -/
def unloadBody (env : AudioEnv) : Except (List AudioEffect) (List AudioEffect) :=
  if env.unloadOk then .ok [.unloadPrevAttempt] else .error [.unloadPrevAttempt]

/-- Body of the web `try` around `new Audio(uri); await audio.play()`
(audio.ts 88-113). -/
def webPlayBody (env : AudioEnv) : Except (List AudioEffect) (List AudioEffect) :=
  if env.webPlayOk then .ok [.customPlayed] else .error []

/-- Body of the mobile `try` (audio.ts 128-165): uri validation, then
`Audio.Sound.createAsync`, `sound.playAsync`, and the awaited
`Notifications.scheduleNotificationAsync`, each of which can raise. -/
def mobileCustomBody (u : String) (env : AudioEnv) :
    Except (List AudioEffect) (List AudioEffect) :=
  if uriSchemeOk u = false then .error []
  else if env.createOk = false then .error []
  else if env.playOk = false then .error []
  else if env.notifyOk = false then .error [.customPlayed]
  else .ok [.customPlayed, .notifPosted]

/-- Body of the web beep `try` of `playSystemNotification` (audio.ts 188-218):
three oscillator beeps via AudioContext. -/
def webBeepBody (env : AudioEnv) : Except (List AudioEffect) (List AudioEffect) :=
  if env.beepWebOk then .ok [.beepAttempt, .beepPlayed] else .error [.beepAttempt]

/-- The detached mobile beep (audio.ts 226-243): `createBeep` is an async
function invoked at line 243 without `await`, so calling it never raises
synchronously — a failing `Audio.Sound.createAsync` becomes a detached
unhandled promise rejection. `env.beepMobileOk` only decides whether the
detached playback actually sounds; neither outcome is observable by the
caller. -/
def mobileBeepDetached (env : AudioEnv) : List AudioEffect :=
  if env.beepMobileOk then [.beepAttempt, .beepPlayed] else [.beepAttempt]

/-- audio.ts `playSystemNotification` (lines 185-256). Despite its name it
posts no OS notification: on web it synthesizes oscillator beeps inside a
`try` whose errors are logged only; on mobile it fires `createBeep()` and
returns — because that call is not awaited, the `catch` at lines 245-254
and the `Vibration.vibrate` fallback inside it are unreachable for audio
failures, so the mobile branch never raises and never vibrates. -/
def playSystemNotification (p : Plat) (env : AudioEnv) : List AudioEffect :=
  .sysNotifyCall ::
    (match p with
     | .web => tryCatch (webBeepBody env) (fun effs => effs)
     | .mobile => mobileBeepDetached env)

/-- Body of the outer `try` of `playSound` (audio.ts 70-178): unload any
previous cue (locally caught), then the platform branch; the custom-sound
stage is locally caught and falls through to `playSystemNotification`, while
success returns early. An `.error` result would mean an exception escaping
to the outer catch. -/
def playSoundBody (p : Plat) (prevLoaded : Bool) (opt : Option SoundOption)
    (env : AudioEnv) : Except (List AudioEffect) (List AudioEffect) :=
  let pre := if prevLoaded then tryCatch (unloadBody env) (fun effs => effs) else []
  match p, customApplicable opt with
  | .web, some u =>
    match webPlayBody env with
    | .ok effs => .ok (pre ++ .customAttempt u :: effs)
    | .error effs =>
      .ok (pre ++ .customAttempt u :: effs ++ playSystemNotification .web env)
  | .web, none => .ok (pre ++ playSystemNotification .web env)
  | .mobile, some u =>
    match mobileCustomBody u env with
    | .ok effs => .ok (pre ++ .customAttempt u :: effs)
    | .error effs =>
      .ok (pre ++ .customAttempt u :: effs ++ playSystemNotification .mobile env)
  | .mobile, none => .ok (pre ++ playSystemNotification .mobile env)

/-- audio.ts `playSound` (lines 69-183): the outer catch (179-182) falls back
to `playSystemNotification`. -/
def playSound (p : Plat) (prevLoaded : Bool) (opt : Option SoundOption)
    (env : AudioEnv) : List AudioEffect :=
  tryCatch (playSoundBody p prevLoaded opt env)
    (fun effs => effs ++ playSystemNotification p env)

/-- Environment in which every external primitive succeeds. -/
def envAllOk : AudioEnv :=
  ⟨true, true, true, true, true, true, true, true⟩

/-- Total audio failure: every audio primitive raises; only the (non-audio)
vibration motor works. -/
def envAudioDead : AudioEnv :=
  ⟨false, false, false, false, false, false, false, true⟩

end Enfoque.AudioSvc

namespace Enfoque.StorageSvc

open Enfoque.AudioSvc (SoundOption DEFAULT_SOUNDS defaultBell)

/-- The persisted keys consulted by the sound-selection part of focus.tsx
`loadData`: the new-format selected sound (`enfoque_selected_sound`), the
new-format custom-sound catalog (`enfoque_custom_sounds`) and the legacy
single custom-sound uri string (`enfoque_custom_sound`). -/
structure SoundStore where
  selectedSound : Option SoundOption
  customSounds : List SoundOption
  legacyCustomSound : Option String
deriving DecidableEq, Repr

/-- The SoundOption built from a legacy uri at focus.tsx lines 180-185. -/
def legacySoundOption (uri : String) : SoundOption :=
  ⟨"legacy_custom", "Custom Sound (Legacy)", some uri, false⟩

/-- The sound-selection logic of focus.tsx `loadData` (lines 169-195):
prefer the new-format selected sound; otherwise read the legacy uri via
`StorageService.getCustomSound`, convert it and persist it with
`StorageService.saveSelectedSound`; otherwise fall back to
`DEFAULT_SOUNDS[0]`. Returns the selected sound and the store after any
write. -/
def loadSoundSelection (st : SoundStore) : SoundOption × SoundStore :=
  match st.selectedSound with
  | some s => (s, st)
  | none =>
    match st.legacyCustomSound with
    | some uri =>
      (legacySoundOption uri, { st with selectedSound := some (legacySoundOption uri) })
    | none => (defaultBell, st)

/-- Values JSON.parse can produce, for modelling the activities store. -/
inductive Json
  | str (s : String)
  | num (n : Int)
  | jbool (b : Bool)
  | jnull
  | arr (xs : List Json)
  | obj (fields : List (String × Json))

/-- The guard at storage.ts `getActivities`:
`Array.isArray(parsed) && parsed.length > 0 && typeof parsed[0] === 'string'`
(only the FIRST element's type is inspected). -/
def isLegacyStringArray : Json → Bool
  | .arr (.str _ :: _) => true
  | _ => false

/-- One element of the legacy conversion map in `getActivities`: index `i`
out of `len` elements at wall-clock `nowMs` becomes a record with a
synthesized id, category `other` and a back-dated `createdAt`. The `name`
field receives the raw element (a string for genuine legacy data). -/
def convertLegacyElem (nowMs : Nat) (len i : Nat) (e : Json) : Json :=
  .obj [("id", .str ("legacy_" ++ toString i ++ "_" ++ toString nowMs)),
        ("name", e),
        ("category", .str "other"),
        ("emoji", .str "‚ú®"),
        ("createdAt", .num ((nowMs : Int) - ((len : Int) - (i : Int)) * 1000))]

/-- The index-carrying map underlying `parsed.map((name, index) => ...)`. -/
def convertFrom (nowMs len : Nat) : Nat → List Json → List Json
  | _, [] => []
  | i, e :: es => convertLegacyElem nowMs len i e :: convertFrom nowMs len (i + 1) es

/-- The converted list persisted and returned by the legacy branch. -/
def convertLegacy (nowMs : Nat) (xs : List Json) : Json :=
  .arr (convertFrom nowMs xs.length 0 xs)

/-- What `getActivities` reads: `none` when no item is stored, `some none`
when the read or `JSON.parse` raises (the catch returns `[]`), and
`some (some j)` when the stored text parses to `j`. -/
def StoredActivities : Type := Option (Option Json)

/-- storage.ts `StorageService.getActivities` (the version of the repository
storage service cited for this claim, lines 36-59): legacy string arrays are
converted, persisted back via `saveActivities` and returned; no stored item
or a failed read/parse yields `[]`; any other parsed value is returned as-is
with no validation. The result pairs the returned value with the store after
any write-back. -/
def getActivities (stored : StoredActivities) (nowMs : Nat) : Json × StoredActivities :=
  match stored with
  | none => (.arr [], stored)
  | some none => (.arr [], stored)
  | some (some j) =>
    if isLegacyStringArray j then
      match j with
      | .arr xs => (convertLegacy nowMs xs, some (some (convertLegacy nowMs xs)))
      | _ => (j, stored)
    else (j, stored)

/-- A structured Activity record in the sense of the `Activity` interface:
an object whose `id`, `name`, `category`, `emoji` fields are strings and
whose `createdAt` is a number. -/
def isActivityRecord : Json → Bool
  | .obj [("id", .str _), ("name", .str _), ("category", .str _),
          ("emoji", .str _), ("createdAt", .num _)] => true
  | _ => false

/-- A JSON value that is a list of structured Activity records. -/
def isActivityList : Json → Bool
  | .arr xs => xs.all isActivityRecord
  | _ => false

end Enfoque.StorageSvc

namespace Enfoque

/-- Field-level description of a foreground transition that finds a recorded
suspension timestamp while the session runs (the compensation branch of
`handleAppStateChange`). -/
theorem foreground_compensate_fields (s : FocusState) (t0 now : Nat)
    (hbg : s.appState.isBg = true) (hrun : s.isRunning = true)
    (hst : s.bgStart = some t0) (ht0 : t0 ≠ 0) :
    (handleAppStateChange s .active now).timeLeft
        = max 0 (s.timeLeft - Int.fdiv ((now : Int) - (t0 : Int)) 1000)
    ∧ (handleAppStateChange s .active now).bgStart = none
    ∧ (handleAppStateChange s .active now).appState = .active
    ∧ (handleAppStateChange s .active now).completions
        = (if max 0 (s.timeLeft - Int.fdiv ((now : Int) - (t0 : Int)) 1000) ≤ 0
           then s.completions + 1 else s.completions)
    ∧ (handleAppStateChange s .active now).isRunning
        = (if max 0 (s.timeLeft - Int.fdiv ((now : Int) - (t0 : Int)) 1000) ≤ 0
           then false else s.isRunning) := by
  unfold handleAppStateChange
  rw [hst]
  simp only [hbg, hrun, ht0, ne_eq, not_false_eq_true, and_self, if_true, true_and]
  split <;> simp_all [handleTimerComplete]

/-- A foreground transition with no recorded suspension timestamp changes
nothing but the observed app state (and clears the timestamp field that was
already empty). -/
theorem foreground_no_marker (s : FocusState) (now : Nat)
    (hbg : s.appState.isBg = true) (hst : s.bgStart = none) :
    handleAppStateChange s .active now = { s with appState := .active } := by
  unfold handleAppStateChange
  rw [hst]
  simp [hbg, hst]

/-- With `t0 ≤ now`, the JS `Math.floor((now - t0) / 1000)` is the natural
division of the millisecond difference. -/
theorem elapsed_eq_natDiv (t0 now : Nat) (h : t0 ≤ now) :
    Int.fdiv ((now : Int) - (t0 : Int)) 1000 = (((now - t0) / 1000 : Nat) : Int) := by
  have h1 : ((now : Int) - (t0 : Int)) = ((now - t0 : Nat) : Int) := by omega
  rw [h1, Int.fdiv_eq_ediv _ (by norm_num)]
  push_cast
  rfl

/-- Claim C2: on a foreground transition that finds a suspension timestamp
with the session running, the clock subtracts
`floor((now - suspendedAtEpochMillis) / 1000)` from `remainingSeconds`,
clamped at 0: it drops by exactly `min N remainingSeconds` where `N` is the
number of whole elapsed seconds, and never becomes negative. -/
theorem c2_compensation_subtracts_min (s : FocusState) (t0 now : Nat)
    (hbg : s.appState.isBg = true) (hrun : s.isRunning = true)
    (hst : s.bgStart = some t0) (ht0 : 0 < t0) (hle : t0 ≤ now)
    (_htl : 0 ≤ s.timeLeft) :
    (handleAppStateChange s .active now).timeLeft
        = s.timeLeft - min (((now - t0) / 1000 : Nat) : Int) s.timeLeft
    ∧ 0 ≤ (handleAppStateChange s .active now).timeLeft := by
  obtain ⟨h1, -⟩ := foreground_compensate_fields s t0 now hbg hrun hst (by omega)
  rw [h1, elapsed_eq_natDiv t0 now hle]
  constructor <;> omega

/-- Claim C2 witness: a session with 10 seconds left, suspended at epoch
5000 ms and resumed at 8000 ms, loses exactly 3 seconds. -/
theorem c2_compensation_subtracts_min_witness :
    (handleAppStateChange ⟨"Read", 10, true, some 5000, .background, 0⟩ .active 8000).timeLeft
        = 10 - min (((8000 - 5000) / 1000 : Nat) : Int) 10
    ∧ 0 ≤ (handleAppStateChange ⟨"Read", 10, true, some 5000, .background, 0⟩ .active 8000).timeLeft :=
  c2_compensation_subtracts_min ⟨"Read", 10, true, some 5000, .background, 0⟩ 5000 8000
    rfl rfl rfl (by decide) (by decide) (by decide)

/-- Claim C3: if backgrounding compensation drives `remainingSeconds` to 0,
the session completes during the foreground transition itself: the
completion notifier fires there, `running` becomes false and
`remainingSeconds` is 0, with no further tick needed. -/
theorem c3_compensation_completes_immediately (s : FocusState) (t0 now : Nat)
    (hbg : s.appState.isBg = true) (hrun : s.isRunning = true)
    (hst : s.bgStart = some t0) (ht0 : 0 < t0) (hle : t0 ≤ now)
    (_htl : 0 ≤ s.timeLeft)
    (hdrive : s.timeLeft - (((now - t0) / 1000 : Nat) : Int) ≤ 0) :
    (handleAppStateChange s .active now).completions = s.completions + 1
    ∧ (handleAppStateChange s .active now).isRunning = false
    ∧ (handleAppStateChange s .active now).timeLeft = 0 := by
  obtain ⟨h1, -, -, h4, h5⟩ := foreground_compensate_fields s t0 now hbg hrun hst (by omega)
  rw [elapsed_eq_natDiv t0 now hle] at h1 h4 h5
  refine ⟨?_, ?_, ?_⟩
  · rw [h4, if_pos (by omega)]
  · rw [h5, if_pos (by omega)]
  · omega

/-- Claim C3 witness: 10 seconds left, suspended at 5000 ms, resumed 99
seconds later: the transition itself records the completion. -/
theorem c3_compensation_completes_immediately_witness :
    (handleAppStateChange ⟨"Read", 10, true, some 5000, .background, 0⟩ .active 104000).completions = 1
    ∧ (handleAppStateChange ⟨"Read", 10, true, some 5000, .background, 0⟩ .active 104000).isRunning = false
    ∧ (handleAppStateChange ⟨"Read", 10, true, some 5000, .background, 0⟩ .active 104000).timeLeft = 0 :=
  c3_compensation_completes_immediately ⟨"Read", 10, true, some 5000, .background, 0⟩ 5000 104000
    rfl rfl rfl (by decide) (by decide) (by decide) (by decide)

/-- The per-second tick never makes the remaining time negative. -/
theorem tick_nonneg (s : FocusState) (h : 0 ≤ s.timeLeft) : 0 ≤ (tick s).timeLeft := by
  unfold tick
  split
  · dsimp only
    split
    · simp
    · simp
      omega
  · exact h

/-- App-state transitions never make the remaining time negative. -/
theorem appChange_nonneg (s : FocusState) (next : RNAppState) (now : Nat)
    (h : 0 ≤ s.timeLeft) : 0 ≤ (handleAppStateChange s next now).timeLeft := by
  unfold handleAppStateChange
  dsimp only
  split
  · split
    · split
      · dsimp only
        split
        · simp
        · simp
      · exact h
    · exact h
  · split <;> exact h

/-- Start/pause toggling never changes the remaining time. -/
theorem toggle_timeLeft (s : FocusState) : ((toggleTimer s).1).timeLeft = s.timeLeft := by
  unfold toggleTimer
  split
  · rfl
  · split <;> rfl

/-- One event preserves nonnegativity of the remaining time, provided a
reset carries a nonnegative duration. -/
theorem stepEv_nonneg (s : FocusState) (e : FocusEv) (h : 0 ≤ s.timeLeft)
    (hres : ∀ d, e = .resetE d → 0 ≤ d) : 0 ≤ (stepEv s e).timeLeft := by
  cases e with
  | tickE => exact tick_nonneg s h
  | appE next now => exact appChange_nonneg s next now h
  | toggleE => rw [stepEv, toggle_timeLeft]; exact h
  | resetE d => exact hres d rfl

/-- Any event sequence preserves nonnegativity of the remaining time. -/
theorem runEvs_nonneg (s : FocusState) (evs : List FocusEv) (h : 0 ≤ s.timeLeft)
    (hres : ∀ d, FocusEv.resetE d ∈ evs → 0 ≤ d) : 0 ≤ (runEvs s evs).timeLeft := by
  induction evs generalizing s with
  | nil => exact h
  | cons e es ih =>
    exact ih (stepEv s e) (stepEv_nonneg s e h (fun d hd => hres d (hd ▸ List.mem_cons_self e es)))
      (fun d hd => hres d (List.mem_cons_of_mem e hd))

/-- A stopped clock has no interval: ticks change nothing. -/
theorem tick_stopped (s : FocusState) (h : s.isRunning = false) : tick s = s := by
  unfold tick
  rw [if_neg]
  simp [h]

/-- Repeated ticks on a stopped clock change nothing: no duplicate
completion firing at zero. -/
theorem ticks_stopped (k : Nat) (s : FocusState) (h : s.isRunning = false) :
    ticks k s = s := by
  induction k with
  | zero => rfl
  | succ n ih => rw [ticks, tick_stopped s h, ih]

/-- A running clock with `n + 1` seconds left counts down to zero in exactly
`n + 1` ticks, stopping and firing the completion notifier exactly once. -/
theorem ticks_countdown (n : Nat) : ∀ s : FocusState, s.isRunning = true →
    s.timeLeft = (n : Int) + 1 →
    ticks (n + 1) s = { s with
      timeLeft := 0
      isRunning := false
      bgStart := none
      completions := s.completions + 1 } := by
  induction n with
  | zero =>
    intro s hrun htime
    have h1 : tick s = { handleTimerComplete s with timeLeft := 0 } := by
      unfold tick
      rw [if_pos ⟨hrun, by omega⟩]
      dsimp only
      rw [if_pos (by omega)]
    rw [ticks, h1, ticks]
    rfl
  | succ k ih =>
    intro s hrun htime
    have h1 : tick s = { s with timeLeft := s.timeLeft - 1 } := by
      unfold tick
      rw [if_pos ⟨hrun, by omega⟩]
      dsimp only
      rw [if_neg (by omega)]
    rw [ticks, h1]
    have h2 := ih { s with timeLeft := s.timeLeft - 1 } hrun (by simp [htime])
    simpa using h2

/-- Starting a stopped clock with a non-empty label turns it on and clears
the suspension timestamp, touching nothing else. -/
theorem toggle_start (s : FocusState) (h : jsTrim s.task ≠ "")
    (hrun : s.isRunning = false) :
    (toggleTimer s).1 = { s with bgStart := none, isRunning := true } := by
  unfold toggleTimer
  rw [if_neg h]
  dsimp only
  rw [if_pos hrun, hrun]
  rfl

/-- Claim C1: `remainingSeconds` never goes negative under any event
sequence (ticks, app-state transitions, toggles, and resets to nonnegative
durations); and for any `durationSeconds > 0`, starting a stopped session
and letting the clock tick `durationSeconds` times leaves
`remainingSeconds = 0`, `running = false` and exactly one completion firing,
with any number of further ticks at zero changing nothing (no duplicate
firing). -/
theorem c1_countdown_completes_exactly_once :
    (∀ (s : FocusState) (evs : List FocusEv), 0 ≤ s.timeLeft →
        (∀ d, FocusEv.resetE d ∈ evs → 0 ≤ d) → 0 ≤ (runEvs s evs).timeLeft)
    ∧ (∀ (d : Nat) (s : FocusState), 0 < d → jsTrim s.task ≠ "" →
        s.isRunning = false → s.timeLeft = (d : Int) → s.completions = 0 →
        (ticks d (toggleTimer s).1).timeLeft = 0
        ∧ (ticks d (toggleTimer s).1).isRunning = false
        ∧ (ticks d (toggleTimer s).1).completions = 1
        ∧ ∀ k, ticks k (ticks d (toggleTimer s).1) = ticks d (toggleTimer s).1) := by
  refine ⟨runEvs_nonneg, ?_⟩
  intro d s hd htask hrun htime hcomp
  obtain ⟨m, rfl⟩ : ∃ m, d = m + 1 := ⟨d - 1, by omega⟩
  rw [toggle_start s htask hrun]
  have h1 := ticks_countdown m { s with bgStart := none, isRunning := true } rfl
    (by simp [htime])
  rw [h1]
  refine ⟨rfl, rfl, by simp [hcomp], ?_⟩
  intro k
  exact ticks_stopped k _ rfl

/-- Claim C1 witness: a 2-second session started with label "Read" reaches
zero, stops, and completes once; five further ticks change nothing. -/
theorem c1_countdown_completes_exactly_once_witness :
    0 ≤ (runEvs ⟨"Read", 2, false, none, .active, 0⟩ [.tickE, .toggleE, .tickE]).timeLeft
    ∧ (ticks 2 (toggleTimer ⟨"Read", 2, false, none, .active, 0⟩).1).timeLeft = 0
    ∧ (ticks 2 (toggleTimer ⟨"Read", 2, false, none, .active, 0⟩).1).completions = 1
    ∧ ticks 5 (ticks 2 (toggleTimer ⟨"Read", 2, false, none, .active, 0⟩).1)
        = ticks 2 (toggleTimer ⟨"Read", 2, false, none, .active, 0⟩).1 := by
  have hA := c1_countdown_completes_exactly_once.1 ⟨"Read", 2, false, none, .active, 0⟩
    [.tickE, .toggleE, .tickE] (by decide) (by intro d hd; simp at hd)
  have hB := c1_countdown_completes_exactly_once.2 2 ⟨"Read", 2, false, none, .active, 0⟩
    (by decide) (by decide) rfl rfl rfl
  exact ⟨hA, hB.1, hB.2.2.1, hB.2.2.2 5⟩

/-- Entering background while the session runs records the suspension
timestamp and nothing else. -/
theorem background_enter (s : FocusState) (b : Nat) (ha : s.appState = .active)
    (hrun : s.isRunning = true) :
    handleAppStateChange s .background b
        = { s with bgStart := some b, appState := .background } := by
  unfold handleAppStateChange
  rw [ha]
  simp [RNAppState.isBg, hrun]

/-- Entering background while stopped records nothing. -/
theorem background_enter_stopped (s : FocusState) (b : Nat) (ha : s.appState = .active)
    (hrun : s.isRunning = false) :
    handleAppStateChange s .background b = { s with appState := .background } := by
  unfold handleAppStateChange
  rw [ha]
  simp [RNAppState.isBg, hrun]

/-- Foregrounding while stopped only clears the timestamp and updates the
observed app state. -/
theorem foreground_stopped (s : FocusState) (now : Nat)
    (hbg : s.appState.isBg = true) (hrun : s.isRunning = false) :
    handleAppStateChange s .active now
        = { s with bgStart := none, appState := .active } := by
  unfold handleAppStateChange
  rcases hst : s.bgStart with - | t0 <;> simp [hbg, hrun, hst]

/-- A foreground transition with a falsy (zero) recorded timestamp only
clears it. -/
theorem foreground_zero_ts (s : FocusState) (now : Nat)
    (hbg : s.appState.isBg = true) (hst : s.bgStart = some 0) :
    handleAppStateChange s .active now
        = { s with bgStart := none, appState := .active } := by
  unfold handleAppStateChange
  rw [hst]
  simp [hbg]

/-- Every foreground transition clears the suspension timestamp, whatever
the running state or recorded value. -/
theorem foreground_clears (s : FocusState) (now : Nat)
    (hbg : s.appState.isBg = true) :
    (handleAppStateChange s .active now).bgStart = none := by
  rcases hst : s.bgStart with - | t0
  · rw [foreground_no_marker s now hbg hst, hst]
  · cases hrun : s.isRunning with
    | false => rw [foreground_stopped s now hbg hrun]
    | true =>
      by_cases ht0 : t0 = 0
      · rw [ht0] at hst
        rw [foreground_zero_ts s now hbg hst]
      · exact (foreground_compensate_fields s t0 now hbg hrun hst ht0).2.1

/-- One background/foreground excursion recorded at `b` and resumed at `f`. -/
def bgCycle (s : FocusState) (b f : Nat) : FocusState :=
  handleAppStateChange (handleAppStateChange s .background b) .active f

/-- Natural division distributes subadditively over a sum. -/
theorem nat_div_add_le (a b k : Nat) : a / k + b / k ≤ (a + b) / k := by
  rcases Nat.eq_zero_or_pos k with hk | hk
  · simp [hk]
  · rw [Nat.le_div_iff_mul_le hk, Nat.add_mul]
    exact Nat.add_le_add (Nat.div_mul_le_self a k) (Nat.div_mul_le_self b k)

/-- One excursion starting and ending in the foreground subtracts at most
the whole seconds that elapsed during it, keeps the time nonnegative, and
returns to the foreground state. -/
theorem bgCycle_spec (s : FocusState) (b f : Nat) (ha : s.appState = .active)
    (h0 : 0 ≤ s.timeLeft) (hb : 0 < b) (hbf : b ≤ f) :
    (bgCycle s b f).appState = .active ∧ 0 ≤ (bgCycle s b f).timeLeft
    ∧ s.timeLeft - (bgCycle s b f).timeLeft ≤ (((f - b) / 1000 : Nat) : Int) := by
  cases hrun : s.isRunning with
  | false =>
    rw [bgCycle, background_enter_stopped s b ha hrun,
      foreground_stopped { s with appState := .background } f rfl hrun]
    refine ⟨rfl, h0, ?_⟩
    show s.timeLeft - s.timeLeft ≤ (((f - b) / 1000 : Nat) : Int)
    rw [sub_self]
    positivity
  | true =>
    rw [bgCycle, background_enter s b ha hrun]
    obtain ⟨h1, -, h3, -⟩ := foreground_compensate_fields
      { s with bgStart := some b, appState := .background } b f rfl hrun rfl (by omega)
    rw [elapsed_eq_natDiv b f hbf] at h1
    exact ⟨h3, by rw [h1]; omega, by rw [h1]; simp only; omega⟩

/-- Claim C4: every foreground transition clears the suspension timestamp
unconditionally, whether or not a session was running; a foreground
transition that finds no timestamp leaves the remaining time untouched; and
two successive background/foreground excursions at instants
`b1 ≤ f1 ≤ b2 ≤ f2` subtract in total at most the whole seconds of the
enclosing wall-clock interval — the same elapsed time is never subtracted
twice. -/
theorem c4_no_double_subtraction :
    (∀ (s : FocusState) (now : Nat), s.appState.isBg = true →
        (handleAppStateChange s .active now).bgStart = none)
    ∧ (∀ (s : FocusState) (now : Nat), s.appState.isBg = true → s.bgStart = none →
        (handleAppStateChange s .active now).timeLeft = s.timeLeft)
    ∧ (∀ (s : FocusState) (b1 f1 b2 f2 : Nat), s.appState = .active →
        0 ≤ s.timeLeft → 0 < b1 → b1 ≤ f1 → f1 ≤ b2 → b2 ≤ f2 →
        s.timeLeft - (bgCycle (bgCycle s b1 f1) b2 f2).timeLeft
          ≤ (((f2 - b1) / 1000 : Nat) : Int)) := by
  refine ⟨foreground_clears, ?_, ?_⟩
  · intro s now hbg hst
    rw [foreground_no_marker s now hbg hst]
  · intro s b1 f1 b2 f2 ha h0 hb1 h12 h23 h34
    obtain ⟨ha1, h01, hd1⟩ := bgCycle_spec s b1 f1 ha h0 hb1 h12
    obtain ⟨-, h02, hd2⟩ := bgCycle_spec (bgCycle s b1 f1) b2 f2 ha1 h01 (by omega) h34
    have hdiv : (f1 - b1) / 1000 + (f2 - b2) / 1000 ≤ (f2 - b1) / 1000 := by
      calc (f1 - b1) / 1000 + (f2 - b2) / 1000
          ≤ ((f1 - b1) + (f2 - b2)) / 1000 := nat_div_add_le _ _ _
        _ ≤ (f2 - b1) / 1000 := Nat.div_le_div_right (by omega)
    have hdiv2 : (((f1 - b1) / 1000 : Nat) : Int) + (((f2 - b2) / 1000 : Nat) : Int)
        ≤ (((f2 - b1) / 1000 : Nat) : Int) := by exact_mod_cast hdiv
    omega

/-- Claim C4 witness: with a 10-second running session, two instant
background/foreground flips at the same millisecond subtract nothing, and a
foreground transition with no recorded timestamp leaves the time at 10. -/
theorem c4_no_double_subtraction_witness :
    (handleAppStateChange ⟨"Read", 10, true, some 7000, .background, 0⟩ .active 7000).bgStart = none
    ∧ (handleAppStateChange ⟨"Read", 10, false, none, .inactive, 0⟩ .active 7000).timeLeft = 10
    ∧ (10 : Int) - (bgCycle (bgCycle ⟨"Read", 10, true, none, .active, 0⟩ 7000 7000) 7000 7000).timeLeft
        ≤ (((7000 - 7000) / 1000 : Nat) : Int) := by
  refine ⟨c4_no_double_subtraction.1 ⟨"Read", 10, true, some 7000, .background, 0⟩ 7000 rfl,
    c4_no_double_subtraction.2.1 ⟨"Read", 10, false, none, .inactive, 0⟩ 7000 rfl rfl, ?_⟩
  exact c4_no_double_subtraction.2.2 ⟨"Read", 10, true, none, .active, 0⟩ 7000 7000 7000 7000
    rfl (by decide) (by decide) (by decide) (by decide) (by decide)

/-- Any activity the re-roll loop returns comes from the pool and, when the
pool has more than one entry, differs in id from the current one. -/
theorem drawLoop_mem_ne (pool : List Activity) (curId : Option String)
    (rands : List Nat) (a : Activity) (hlen : 1 < pool.length)
    (h : drawLoop pool curId rands = some a) :
    a ∈ pool ∧ curId ≠ some a.id := by
  induction rands with
  | nil => simp [drawLoop] at h
  | cons r rs ih =>
    rw [drawLoop] at h
    rcases hg : pool.get? r with - | b
    · rw [hg] at h
      cases h
    · rw [hg] at h
      dsimp only at h
      by_cases hc : curId = some b.id ∧ 1 < pool.length
      · rw [if_pos hc] at h
        exact ih h
      · rw [if_neg hc] at h
        cases h
        refine ⟨List.get?_mem hg, ?_⟩
        intro hcur
        exact hc ⟨hcur, hlen⟩

/-- The re-roll loop succeeds as soon as the random supply contains an
in-range index whose activity has a different id. -/
theorem drawLoop_isSome (pool : List Activity) (curId : Option String)
    (rands : List Nat)
    (hrange : ∀ r ∈ rands, r < pool.length)
    (hwit : ∃ r ∈ rands, ∃ b : Activity, pool.get? r = some b ∧ curId ≠ some b.id) :
    (drawLoop pool curId rands).isSome = true := by
  induction rands with
  | nil => simp at hwit
  | cons r rs ih =>
    rw [drawLoop]
    rcases hg : pool.get? r with - | c
    · exact absurd (hrange r (List.mem_cons_self r rs))
        (by simpa using List.get?_eq_none.mp hg)
    · dsimp only
      by_cases hc : curId = some c.id ∧ 1 < pool.length
      · rw [if_pos hc]
        refine ih (fun x hx => hrange x (List.mem_cons_of_mem r hx)) ?_
        rcases hwit with ⟨r0, hr0, b, hb, hne⟩
        rcases List.mem_cons.mp hr0 with rfl | hmem
        · rw [hg] at hb
          cases hb
          exact absurd hc.1 hne
        · exact ⟨r0, hmem, b, hb, hne⟩
      · rw [if_neg hc]
        rfl

/-- Claim C8: with a pool of two or more activities, `getNewActivity` never
yields the activity just shown (the returned pick is from the pool and its
id differs from the current one), and it does yield a pick as soon as the
random draws hit any differently-labelled entry; with a pool of exactly one
activity the displayed activity stays that activity. -/
theorem c8_reward_no_repeat :
    (∀ (pool : List Activity) (cur : Option Activity) (rands : List Nat) (a : Activity),
        2 ≤ pool.length → getNewActivity pool cur rands = some a →
        a ∈ pool ∧ Option.map (fun x => x.id) cur ≠ some a.id)
    ∧ (∀ (pool : List Activity) (cur : Option Activity) (rands : List Nat),
        2 ≤ pool.length → (∀ r ∈ rands, r < pool.length) →
        (∃ r ∈ rands, ∃ b : Activity, pool.get? r = some b
            ∧ Option.map (fun x => x.id) cur ≠ some b.id) →
        (getNewActivity pool cur rands).isSome = true)
    ∧ (∀ (a : Activity) (rands : List Nat), displayedAfter [a] (some a) rands = some a) := by
  refine ⟨?_, ?_, ?_⟩
  · intro pool cur rands a hlen h
    rw [getNewActivity, if_pos (by omega)] at h
    exact drawLoop_mem_ne pool (cur.map (·.id)) rands a (by omega) h
  · intro pool cur rands hlen hrange hwit
    rw [getNewActivity, if_pos (by omega)]
    exact drawLoop_isSome pool (cur.map (·.id)) rands hrange hwit
  · intro a rands
    simp [displayedAfter, getNewActivity]

/-- Claim C8 witness: in the two-element pool the re-roll starting from the
first entry lands on the second, which is a different id; and a singleton
pool keeps its activity displayed. -/
theorem c8_reward_no_repeat_witness :
    (⟨"a2", "walk", "other", "x", 0⟩ : Activity) ∈
        [(⟨"a1", "draw", "other", "x", 0⟩ : Activity), ⟨"a2", "walk", "other", "x", 0⟩]
    ∧ Option.map (fun x : Activity => x.id) (some ⟨"a1", "draw", "other", "x", 0⟩) ≠ some "a2"
    ∧ (getNewActivity [⟨"a1", "draw", "other", "x", 0⟩, ⟨"a2", "walk", "other", "x", 0⟩]
        (some ⟨"a1", "draw", "other", "x", 0⟩) [0, 0, 1]).isSome = true
    ∧ displayedAfter [⟨"a1", "draw", "other", "x", 0⟩]
        (some ⟨"a1", "draw", "other", "x", 0⟩) [0, 0] = some ⟨"a1", "draw", "other", "x", 0⟩ := by
  obtain ⟨h1, h2⟩ := c8_reward_no_repeat.1
    [⟨"a1", "draw", "other", "x", 0⟩, ⟨"a2", "walk", "other", "x", 0⟩]
    (some ⟨"a1", "draw", "other", "x", 0⟩) [0, 0, 1] ⟨"a2", "walk", "other", "x", 0⟩
    (by decide) (by decide)
  refine ⟨h1, h2, ?_, ?_⟩
  · exact c8_reward_no_repeat.2.1
      [⟨"a1", "draw", "other", "x", 0⟩, ⟨"a2", "walk", "other", "x", 0⟩]
      (some ⟨"a1", "draw", "other", "x", 0⟩) [0, 0, 1] (by decide) (by decide)
      ⟨1, by decide, ⟨"a2", "walk", "other", "x", 0⟩, by decide, by decide⟩
  · exact c8_reward_no_repeat.2.2 ⟨"a1", "draw", "other", "x", 0⟩ [0, 0]

/-- Claim C7: starting with an empty or whitespace-only task label is a
synchronous no-op that surfaces a validation message and changes no state;
with a non-empty label, starting from a stopped clock sets `running = true`
without touching the remaining time or the task. -/
theorem c7_empty_task_rejected :
    (∀ s : FocusState, jsTrim s.task = "" → toggleTimer s = (s, some "Task Required"))
    ∧ (∀ s : FocusState, jsTrim s.task ≠ "" → s.isRunning = false →
        (toggleTimer s).2 = none ∧ (toggleTimer s).1.isRunning = true
        ∧ (toggleTimer s).1.timeLeft = s.timeLeft
        ∧ (toggleTimer s).1.task = s.task) := by
  constructor
  · intro s h
    simp [toggleTimer, h]
  · intro s h hrun
    simp [toggleTimer, h, hrun]

/-- Claim C7 witness: a whitespace-only label is rejected unchanged; the
label "Read" starts the clock. -/
theorem c7_empty_task_rejected_witness :
    toggleTimer ⟨"   ", 60, false, none, .active, 0⟩
        = (⟨"   ", 60, false, none, .active, 0⟩, some "Task Required")
    ∧ (toggleTimer ⟨"Read", 60, false, none, .active, 0⟩).1.isRunning = true :=
  ⟨c7_empty_task_rejected.1 ⟨"   ", 60, false, none, .active, 0⟩ (by decide),
   (c7_empty_task_rejected.2 ⟨"Read", 60, false, none, .active, 0⟩ (by decide) rfl).2.1⟩

end Enfoque

namespace Enfoque.AudioSvc

/-- Membership facts about one `playSystemNotification` run: it always
starts with the synthesized-tone stage marker, never posts an OS
notification or attempts a custom sound, and never reaches the vibration
fallback — on mobile the un-awaited `createBeep()` failure is a detached
rejection that bypasses the catch holding `Vibration.vibrate`. -/
theorem sysNotify_members (p : Plat) (env : AudioEnv) :
    AudioEffect.sysNotifyCall ∈ playSystemNotification p env
    ∧ AudioEffect.notifPosted ∉ playSystemNotification p env
    ∧ (∀ u, AudioEffect.customAttempt u ∉ playSystemNotification p env)
    ∧ AudioEffect.vibrateAttempt ∉ playSystemNotification p env
    ∧ AudioEffect.vibrated ∉ playSystemNotification p env := by
  obtain ⟨eu, ew, ec, ep, en, ebw, ebm, ev⟩ := env
  cases p <;> cases ebw <;> cases ebm <;>
    simp [playSystemNotification, tryCatch, webBeepBody, mobileBeepDetached]

/-- The unload preamble of `playSound` contributes its marker exactly when a
previous cue was loaded, whether or not unloading raises. -/
theorem preEffects (prev : Bool) (env : AudioEnv) :
    (if prev then tryCatch (unloadBody env) (fun effs => effs) else [])
      = (if prev then [AudioEffect.unloadPrevAttempt] else []) := by
  cases prev <;> cases he : env.unloadOk <;> simp [tryCatch, unloadBody, he]

/-- The custom-sound stage of the cascade runs to completion without raising. -/
def customFullSuccess (p : Plat) (opt : Option SoundOption) (env : AudioEnv) : Prop :=
  match p, customApplicable opt with
  | .web, some _ => env.webPlayOk = true
  | .mobile, some u => uriSchemeOk u = true ∧ env.createOk = true
      ∧ env.playOk = true ∧ env.notifyOk = true
  | _, none => False

end Enfoque.AudioSvc

namespace Enfoque.AudioSvc

/-- When the mobile custom-sound stage succeeds end to end it plays the cue
and posts the completion notification. -/
theorem mobileCustomBody_ok (u : String) (env : AudioEnv)
    (h1 : uriSchemeOk u = true) (h2 : env.createOk = true) (h3 : env.playOk = true)
    (h4 : env.notifyOk = true) :
    mobileCustomBody u env = .ok [.customPlayed, .notifPosted] := by
  simp [mobileCustomBody, h1, h2, h3, h4]

/-- When any step of the mobile custom-sound stage raises, the stage raises,
and the effects it logged before raising contain no notification, no
synthesized-tone stage, no vibration and no further custom attempt. -/
theorem mobileCustomBody_error_props (u : String) (env : AudioEnv)
    (hfail : ¬ (uriSchemeOk u = true ∧ env.createOk = true ∧ env.playOk = true
      ∧ env.notifyOk = true)) :
    ∃ effs, mobileCustomBody u env = .error effs
      ∧ AudioEffect.notifPosted ∉ effs ∧ AudioEffect.sysNotifyCall ∉ effs
      ∧ AudioEffect.vibrateAttempt ∉ effs ∧ AudioEffect.vibrated ∉ effs
      ∧ ∀ x, AudioEffect.customAttempt x ∉ effs := by
  cases h1 : uriSchemeOk u with
  | false =>
    exact ⟨[], by simp [mobileCustomBody, h1], by simp, by simp, by simp, by simp, by simp⟩
  | true =>
    cases h2 : env.createOk with
    | false =>
      exact ⟨[], by simp [mobileCustomBody, h1, h2], by simp, by simp, by simp, by simp, by simp⟩
    | true =>
      cases h3 : env.playOk with
      | false =>
        exact ⟨[], by simp [mobileCustomBody, h1, h2, h3], by simp, by simp, by simp, by simp,
          by simp⟩
      | true =>
        cases h4 : env.notifyOk with
        | false =>
          exact ⟨[.customPlayed], by simp [mobileCustomBody, h1, h2, h3, h4],
            by simp, by simp, by simp, by simp, by simp⟩
        | true => exact absurd ⟨h1, h2, h3, h4⟩ hfail

end Enfoque.AudioSvc


namespace Enfoque.AudioSvc

/-- The unload preamble as it appears literally in `playSoundBody`. -/
def preU (prev : Bool) (env : AudioEnv) : List AudioEffect :=
  if prev then tryCatch (unloadBody env) (fun effs => effs) else []

/-- Unfolding equation: no applicable custom sound goes straight to the
synthesized system-notification stage. -/
theorem playSoundBody_none (p : Plat) (prev : Bool) (opt : Option SoundOption)
    (env : AudioEnv) (h : customApplicable opt = none) :
    playSoundBody p prev opt env = .ok (preU prev env ++ playSystemNotification p env) := by
  unfold playSoundBody preU
  rw [h]
  cases p <;> rfl

/-- Unfolding equation: applicable custom sound on web, playback succeeds. -/
theorem playSoundBody_web_ok (prev : Bool) (opt : Option SoundOption) (env : AudioEnv)
    (u : String) (effs : List AudioEffect) (h : customApplicable opt = some u)
    (hw : webPlayBody env = .ok effs) :
    playSoundBody .web prev opt env
      = .ok (preU prev env ++ AudioEffect.customAttempt u :: effs) := by
  unfold playSoundBody preU
  rw [h]
  dsimp only
  rw [hw]

/-- Unfolding equation: applicable custom sound on web, playback raises. -/
theorem playSoundBody_web_err (prev : Bool) (opt : Option SoundOption) (env : AudioEnv)
    (u : String) (effs : List AudioEffect) (h : customApplicable opt = some u)
    (hw : webPlayBody env = .error effs) :
    playSoundBody .web prev opt env
      = .ok (preU prev env ++ AudioEffect.customAttempt u
          :: (effs ++ playSystemNotification .web env)) := by
  unfold playSoundBody preU
  rw [h]
  dsimp only
  rw [hw]
  simp

/-- Unfolding equation: applicable custom sound on mobile, stage succeeds. -/
theorem playSoundBody_mobile_ok (prev : Bool) (opt : Option SoundOption) (env : AudioEnv)
    (u : String) (effs : List AudioEffect) (h : customApplicable opt = some u)
    (hm : mobileCustomBody u env = .ok effs) :
    playSoundBody .mobile prev opt env
      = .ok (preU prev env ++ AudioEffect.customAttempt u :: effs) := by
  unfold playSoundBody preU
  rw [h]
  dsimp only
  rw [hm]

/-- Unfolding equation: applicable custom sound on mobile, stage raises. -/
theorem playSoundBody_mobile_err (prev : Bool) (opt : Option SoundOption) (env : AudioEnv)
    (u : String) (effs : List AudioEffect) (h : customApplicable opt = some u)
    (hm : mobileCustomBody u env = .error effs) :
    playSoundBody .mobile prev opt env
      = .ok (preU prev env ++ AudioEffect.customAttempt u
          :: (effs ++ playSystemNotification .mobile env)) := by
  unfold playSoundBody preU
  rw [h]
  dsimp only
  rw [hm]
  simp

/-- When the outer try body returns normally, `playSound` returns its trace:
the outer catch is not exercised. -/
theorem playSound_of_body_ok (p : Plat) (prev : Bool) (opt : Option SoundOption)
    (env : AudioEnv) (tr : List AudioEffect)
    (h : playSoundBody p prev opt env = .ok tr) :
    playSound p prev opt env = tr := by
  unfold playSound
  rw [h]
  rfl

end Enfoque.AudioSvc

namespace Enfoque.AudioSvc

/-- The unload preamble evaluated: its marker appears exactly when a
previous cue was loaded, whether or not unloading raises. -/
theorem preU_eq (prev : Bool) (env : AudioEnv) :
    preU prev env = if prev then [AudioEffect.unloadPrevAttempt] else [] :=
  preEffects prev env

set_option maxHeartbeats 1000000 in
/-- Claim C5 (amended): characterization of the actual cascade of
`AudioService.playSound`. The custom-sound stage is attempted exactly when a
non-default SoundOption with a uri is configured; the synthesized
system-notification tone is invoked exactly when that stage is inapplicable
or raises; the vibration fallback is never reached — on mobile the
un-awaited `createBeep()` failure is a detached rejection that bypasses the
catch holding `Vibration.vibrate`; and an OS notification is posted exactly
when the custom stage fully succeeds on mobile — not independently of the
audio outcome, and with no bundled-default-tone stage in between. -/
theorem c5_fallback_chain_amended (p : Plat) (prev : Bool) (opt : Option SoundOption)
    (env : AudioEnv) :
    (AudioEffect.sysNotifyCall ∈ playSound p prev opt env ↔ ¬ customFullSuccess p opt env)
    ∧ (∀ u, AudioEffect.customAttempt u ∈ playSound p prev opt env ↔
        customApplicable opt = some u)
    ∧ (AudioEffect.vibrateAttempt ∉ playSound p prev opt env
        ∧ AudioEffect.vibrated ∉ playSound p prev opt env)
    ∧ (AudioEffect.notifPosted ∈ playSound p prev opt env ↔
        p = .mobile ∧ customFullSuccess p opt env) := by
  obtain ⟨m1, m2, m3, m4, m5⟩ := sysNotify_members p env
  rcases h : customApplicable opt with - | u
  · have hps : playSound p prev opt env = preU prev env ++ playSystemNotification p env :=
      playSound_of_body_ok _ _ _ _ _ (playSoundBody_none p prev opt env h)
    have hfs : ¬ customFullSuccess p opt env := by
      cases p <;> simp [customFullSuccess, h]
    rw [hps, preU_eq]
    cases prev <;> simp [m1, m2, m3, m4, m5, hfs, h]
  · cases p with
    | web =>
      have hfs : customFullSuccess .web opt env ↔ env.webPlayOk = true := by
        simp [customFullSuccess, h]
      cases hw : env.webPlayOk with
      | true =>
        have hwb : webPlayBody env = .ok [.customPlayed] := by simp [webPlayBody, hw]
        have hps := playSound_of_body_ok _ _ _ _ _
          (playSoundBody_web_ok prev opt env u [.customPlayed] h hwb)
        rw [hps, preU_eq]
        cases prev <;> simp [hfs, hw, h] <;> exact fun x => eq_comm
      | false =>
        have hwb : webPlayBody env = .error [] := by simp [webPlayBody, hw]
        have hps := playSound_of_body_ok _ _ _ _ _
          (playSoundBody_web_err prev opt env u [] h hwb)
        rw [hps, preU_eq]
        cases prev <;> simp [m1, m2, m3, m4, m5, hfs, hw, h] <;> exact fun x => eq_comm
    | mobile =>
      have hfs : customFullSuccess .mobile opt env ↔
          (uriSchemeOk u = true ∧ env.createOk = true ∧ env.playOk = true
            ∧ env.notifyOk = true) := by
        simp [customFullSuccess, h]
      by_cases hful : uriSchemeOk u = true ∧ env.createOk = true ∧ env.playOk = true
          ∧ env.notifyOk = true
      · have hps := playSound_of_body_ok _ _ _ _ _
          (playSoundBody_mobile_ok prev opt env u [.customPlayed, .notifPosted] h
            (mobileCustomBody_ok u env hful.1 hful.2.1 hful.2.2.1 hful.2.2.2))
        rw [hps, preU_eq]
        cases prev <;> simp [hfs, hful, h] <;> exact fun x => eq_comm
      · obtain ⟨effs, he, hn1, hn2, hn3, hn4, hn5⟩ := mobileCustomBody_error_props u env hful
        have hps := playSound_of_body_ok _ _ _ _ _
          (playSoundBody_mobile_err prev opt env u effs h he)
        rw [hps, preU_eq]
        cases prev <;> simp [m1, m2, m3, m4, m5, hn1, hn2, hn3, hn4, hn5, hfs, hful, h] <;>
          exact fun x => eq_comm

end Enfoque.AudioSvc

namespace Enfoque.AudioSvc

/-- The outer try body of `playSound` always returns normally: every stage
failure is caught at the stage itself, so the outer catch is never needed
and the call never raises. -/
theorem playSoundBody_never_raises (p : Plat) (prev : Bool) (opt : Option SoundOption)
    (env : AudioEnv) : playSoundBody p prev opt env = .ok (playSound p prev opt env) := by
  rcases h : customApplicable opt with - | u
  · rw [playSound_of_body_ok _ _ _ _ _ (playSoundBody_none p prev opt env h),
      playSoundBody_none p prev opt env h]
  · cases p with
    | web =>
      rcases hw : webPlayBody env with effs | effs
      · rw [playSound_of_body_ok _ _ _ _ _ (playSoundBody_web_err prev opt env u effs h hw),
          playSoundBody_web_err prev opt env u effs h hw]
      · rw [playSound_of_body_ok _ _ _ _ _ (playSoundBody_web_ok prev opt env u effs h hw),
          playSoundBody_web_ok prev opt env u effs h hw]
    | mobile =>
      rcases hm : mobileCustomBody u env with effs | effs
      · rw [playSound_of_body_ok _ _ _ _ _ (playSoundBody_mobile_err prev opt env u effs h hm),
          playSoundBody_mobile_err prev opt env u effs h hm]
      · rw [playSound_of_body_ok _ _ _ _ _ (playSoundBody_mobile_ok prev opt env u effs h hm),
          playSoundBody_mobile_ok prev opt env u effs h hm]

/-- Claim C6 counterexample: under total audio failure on mobile (every
audio primitive raises, although the vibration motor itself works), the
always-failing custom sound leads to a cascade that completes but issues
neither a vibration — the fallback is unreachable because the failing
`createBeep()` is a detached rejection — nor any notification, refuting the
claim that the worst case falls back to vibration and/or a notification. -/
theorem c6_playSound_never_throws_counterexample :
    ¬ (AudioEffect.vibrated ∈ playSound .mobile false
          (some ⟨"c1", "broken", some "file://broken.mp3", false⟩) envAudioDead
        ∨ AudioEffect.vibrateAttempt ∈ playSound .mobile false
          (some ⟨"c1", "broken", some "file://broken.mp3", false⟩) envAudioDead
        ∨ AudioEffect.notifPosted ∈ playSound .mobile false
          (some ⟨"c1", "broken", some "file://broken.mp3", false⟩) envAudioDead) := by
  decide

/-- Claim C6 (amended): `AudioService.playSound` never throws — for every
platform, loaded-cue state, SoundOption (including one whose playback
always fails) and environment of primitive outcomes, the try body returns
normally, so no exception reaches the caller (the failing mobile beep is
only a detached unhandled rejection); and with every audio primitive
failing, the call still completes its cascade, reaching the
system-notification stage on both platforms, but issues no vibration and
posts no notification. -/
theorem c6_playSound_never_throws_amended :
    (∀ (p : Plat) (prev : Bool) (opt : Option SoundOption) (env : AudioEnv),
        playSoundBody p prev opt env = .ok (playSound p prev opt env))
    ∧ AudioEffect.sysNotifyCall ∈ playSound .mobile false
        (some ⟨"c1", "broken", some "file://broken.mp3", false⟩) envAudioDead
    ∧ AudioEffect.vibrateAttempt ∉ playSound .mobile false
        (some ⟨"c1", "broken", some "file://broken.mp3", false⟩) envAudioDead
    ∧ AudioEffect.notifPosted ∉ playSound .mobile false
        (some ⟨"c1", "broken", some "file://broken.mp3", false⟩) envAudioDead
    ∧ AudioEffect.sysNotifyCall ∈ playSound .web false
        (some ⟨"c1", "broken", some "file://broken.mp3", false⟩) envAudioDead :=
  ⟨playSoundBody_never_raises, by decide, by decide, by decide, by decide⟩

/-- Claim C5 counterexample: with the default bell configured and every
primitive succeeding on mobile, the cascade goes straight to the
synthesized tone — there is no bundled-default-tone playback — and no OS
notification is posted even though the audio fully succeeded, contradicting
both the claimed stage order and the claimed unconditional passive
notification. -/
theorem c5_fallback_chain_counterexample :
    playSound .mobile false (some defaultBell) envAllOk
      = [AudioEffect.sysNotifyCall, AudioEffect.beepAttempt, AudioEffect.beepPlayed]
    ∧ AudioEffect.notifPosted ∉ playSound .mobile false (some defaultBell) envAllOk
    ∧ AudioEffect.beepPlayed ∈ playSound .mobile false (some defaultBell) envAllOk := by
  refine ⟨by decide, by decide, by decide⟩

end Enfoque.AudioSvc

namespace Enfoque.StorageSvc

/-- Claim C9 counterexample: a first load that finds only the legacy uri
leaves the persisted custom-sound list empty — the migrated record is not
added to the SoundOption list, contradicting the claim that the legacy uri
is migrated into that list. -/
theorem c9_legacy_migration_counterexample :
    (loadSoundSelection ⟨none, [], some "file://old.mp3"⟩).2.customSounds = []
    ∧ legacySoundOption "file://old.mp3"
        ∉ (loadSoundSelection ⟨none, [], some "file://old.mp3"⟩).2.customSounds :=
  ⟨rfl, by decide⟩

/-- Claim C9 (amended): when the new-format selected-sound record is absent
and a legacy custom-sound uri is stored, the first load converts the uri to
a SoundOption record and persists it as the selected sound (the new-format
key); it does not append it to the custom-sounds list. A subsequent load
returns that new-format record unchanged, without consulting the legacy
key. -/
theorem c9_legacy_migration_amended (st : SoundStore) (uri : String)
    (hsel : st.selectedSound = none) (hleg : st.legacyCustomSound = some uri) :
    (loadSoundSelection st).1 = legacySoundOption uri
    ∧ (loadSoundSelection st).2.selectedSound = some (legacySoundOption uri)
    ∧ (loadSoundSelection st).2.customSounds = st.customSounds
    ∧ loadSoundSelection (loadSoundSelection st).2
        = (legacySoundOption uri, (loadSoundSelection st).2)
    ∧ (loadSoundSelection { (loadSoundSelection st).2 with legacyCustomSound := none }).1
        = legacySoundOption uri := by
  simp [loadSoundSelection, hsel, hleg]

/-- Claim C9 witness: concrete first and second loads over a store holding
only the legacy uri. -/
theorem c9_legacy_migration_amended_witness :
    (loadSoundSelection ⟨none, [], some "file://old.mp3"⟩).1
        = legacySoundOption "file://old.mp3"
    ∧ (loadSoundSelection ⟨none, [], some "file://old.mp3"⟩).2.selectedSound
        = some (legacySoundOption "file://old.mp3")
    ∧ loadSoundSelection (loadSoundSelection ⟨none, [], some "file://old.mp3"⟩).2
        = (legacySoundOption "file://old.mp3",
           (loadSoundSelection ⟨none, [], some "file://old.mp3"⟩).2) := by
  obtain ⟨h1, h2, -, h4, -⟩ :=
    c9_legacy_migration_amended ⟨none, [], some "file://old.mp3"⟩ "file://old.mp3" rfl rfl
  exact ⟨h1, h2, h4⟩

/-- Every record produced by the legacy conversion of a list of strings is a
structured Activity record (string id, name, category `other`, emoji, and a
numeric creation time). -/
theorem convertFrom_all_records (nowMs len : Nat) :
    ∀ (xs : List Json) (i : Nat), (∀ x ∈ xs, ∃ t, x = Json.str t) →
      ∀ y ∈ convertFrom nowMs len i xs, isActivityRecord y = true := by
  intro xs
  induction xs with
  | nil => intro i h y hy; simp [convertFrom] at hy
  | cons e es ih =>
    intro i h y hy
    rw [convertFrom] at hy
    rcases List.mem_cons.mp hy with rfl | hmem
    · obtain ⟨t, rfl⟩ := h e (List.mem_cons_self e es)
      rfl
    · exact ih (i + 1) (fun x hx => h x (List.mem_cons_of_mem e hx)) y hmem

/-- Claim C10 counterexample: a persisted value that parses but is neither
a string array nor activity records (here the number 5) is returned as-is,
so `getActivities` does not always return structured Activity records. -/
theorem c10_getActivities_counterexample :
    isActivityList (getActivities (some (some (Json.num 5))) 1700000000000).1 = false := by
  rfl

/-- Claim C10 (amended): `StorageService.getActivities` never raises: no
stored item and a failed read/parse both yield the empty list with the
store untouched; a parsed non-empty array whose first element is a string
is converted element-wise — category `other`, synthesized id — persisted
back, and returned (structured Activity records whenever every element is a
string); and any other parsed value is returned as-is, unvalidated, with
the store untouched. -/
theorem c10_getActivities_amended (nowMs : Nat) :
    getActivities none nowMs = (.arr [], none)
    ∧ getActivities (some none) nowMs = (.arr [], some none)
    ∧ (∀ (s : String) (rest : List Json),
        getActivities (some (some (.arr (.str s :: rest)))) nowMs
          = (convertLegacy nowMs (.str s :: rest),
             some (some (convertLegacy nowMs (.str s :: rest)))))
    ∧ (∀ j : Json, isLegacyStringArray j = false →
        getActivities (some (some j)) nowMs = (j, some (some j)))
    ∧ (∀ (s : String) (rest : List Json), (∀ x ∈ rest, ∃ t, x = Json.str t) →
        isActivityList (convertLegacy nowMs (.str s :: rest)) = true) := by
  refine ⟨rfl, rfl, ?_, ?_, ?_⟩
  · intro s rest
    rfl
  · intro j hj
    simp [getActivities, hj]
  · intro s rest h
    rw [convertLegacy, isActivityList]
    rw [List.all_eq_true]
    intro y hy
    refine convertFrom_all_records nowMs (Json.str s :: rest).length
      (Json.str s :: rest) 0 ?_ y hy
    intro x hx
    rcases List.mem_cons.mp hx with rfl | hmem
    · exact ⟨s, rfl⟩
    · exact h x hmem

/-- Claim C10 witness: the concrete legacy store `["read"]` is converted to
one structured record and persisted back; the number 5 is returned as-is. -/
theorem c10_getActivities_amended_witness :
    getActivities (some (some (.arr [.str "read"]))) 123
      = (convertLegacy 123 [.str "read"], some (some (convertLegacy 123 [.str "read"])))
    ∧ getActivities (some (some (Json.num 5))) 123 = (Json.num 5, some (some (Json.num 5)))
    ∧ isActivityList (convertLegacy 123 [.str "read"]) = true := by
  refine ⟨(c10_getActivities_amended 123).2.2.1 "read" [], ?_, ?_⟩
  · exact (c10_getActivities_amended 123).2.2.2.1 (Json.num 5) rfl
  · exact (c10_getActivities_amended 123).2.2.2.2 "read" [] (by intro x hx; cases hx)

end Enfoque.StorageSvc

namespace Enfoque.AudioSvc

/-- Claim C5 amended-theorem witness: at the concrete all-succeeding mobile
run with the default bell, the characterization yields the synthesized-tone
stage and rules out a posted notification. -/
theorem c5_fallback_chain_amended_witness :
    AudioEffect.sysNotifyCall ∈ playSound .mobile false (some defaultBell) envAllOk
    ∧ AudioEffect.notifPosted ∉ playSound .mobile false (some defaultBell) envAllOk := by
  obtain ⟨h1, -, -, h4⟩ := c5_fallback_chain_amended .mobile false (some defaultBell) envAllOk
  constructor
  · exact h1.mpr (by simp [customFullSuccess, customApplicable, defaultBell])
  · intro hmem
    have := (h4.mp hmem).2
    simp [customFullSuccess, customApplicable, defaultBell] at this

end Enfoque.AudioSvc
